import Mathlib

/-!
Shallow embedding of the matching-and-logging core of `src/script.js`
(a facial-recognition service: SQLite-backed descriptor store, Euclidean
matcher, recognition ledger, Express orchestration routes).

Modelling conventions:
* JavaScript numbers are modelled as real numbers (`ℝ`); `NaN` is outside
  the model.  `Infinity`, which appears only as the initial `bestMatch`
  distance in `recognizeFace`, is modelled by `Option ℝ` with `none`
  standing for `Infinity` (every real number satisfies `d < Infinity`,
  and `Infinity < t` is false for every real `t`, which is exactly how
  the `none` branches below behave).
* The SQLite tables are modelled as in-memory lists: `faces` rows in
  insertion order inside `StoreState`, `recognition_logs` rows in
  insertion order as a `List LogRow`.  `AUTOINCREMENT` ids are modelled
  by the `nextId` counter.  `ORDER BY timestamp DESC` on the log table is
  modelled as `List.reverse` of the insertion-ordered list (row
  timestamps are non-decreasing in insertion order).
* `JSON.stringify`/`JSON.parse` of a descriptor (`registerFace` encodes,
  `getAllFaces` decodes) are abstracted to the identity on the numeric
  vector: the stored descriptor field holds the vector itself.
* Promise `reject(err)` is modelled as `Except.error`; the only rejection
  in the store/ledger functions is a storage-layer error from `db.run`,
  which the pure model never produces, so those functions always return
  `Except.ok` — faithfully reflecting that the JavaScript has no other
  failure path.
-/

open Classical

/-- A decoded row of the `faces` table, as produced by `getAllFaces`
(`{id, name, descriptor}`). -/
structure RegisteredFace where
  id : Nat
  name : String
  descriptor : List ℝ

/-- The `faces` table plus the `AUTOINCREMENT` counter. -/
structure StoreState where
  nextId : Nat
  faces : List RegisteredFace

/-- A storage-layer error surfaced by `db.run`/`db.all` (`reject(err)`). -/
inductive StoreError where
  | storage : StoreError

/-- A row of the `recognition_logs` table
(`{matched_name, confidence, status}`). -/
structure LogRow where
  matched_name : String
  confidence : ℝ
  status : String

/-- `registerFace(name, descriptor, imagePath)`: `JSON.stringify` the
descriptor and `INSERT INTO faces`, resolving the new row id.  The image
path does not influence the modelled state.  No validation of any kind is
performed on the descriptor. -/
def registerFace (s : StoreState) (name : String) (descriptor : List ℝ) :
    StoreState × Except StoreError Nat :=
  (⟨s.nextId + 1, s.faces ++ [⟨s.nextId, name, descriptor⟩]⟩, Except.ok s.nextId)

/-- `getAllFaces()`: `SELECT id, name, descriptor FROM faces`, decoding each
descriptor. -/
def getAllFaces (s : StoreState) : List RegisteredFace :=
  s.faces

/-- `deleteFace(faceId)`: `DELETE FROM faces WHERE id = ?`; the callback
resolves `true` whether or not any row matched. -/
def deleteFace (s : StoreState) (faceId : Nat) :
    StoreState × Except StoreError Bool :=
  (⟨s.nextId, s.faces.filter (fun f => f.id != faceId)⟩, Except.ok true)

/-- `logRecognition(matchedName, confidence, status)`: append one row to
`recognition_logs` with `statusText = status ? 'matched' : 'unmatched'`. -/
def logRecognition (logs : List LogRow) (matchedName : String)
    (confidence : ℝ) (status : Bool) : List LogRow :=
  logs ++ [⟨matchedName, confidence, if status then "matched" else "unmatched"⟩]

/-- `getRecognitionHistory(limit)`:
`SELECT * FROM recognition_logs ORDER BY timestamp DESC LIMIT ?`.
With rows held in insertion (time) order, descending-timestamp order is
the reversed list, and `LIMIT` takes a prefix of it. -/
def getRecognitionHistory (logs : List LogRow) (limit : Nat) : List LogRow :=
  logs.reverse.take limit

/-- `calculateDistance(descriptor1, descriptor2)`: Euclidean distance,
`Math.sqrt` of the sum over `i` of `(descriptor1[i] - descriptor2[i])^2`
(the loop multiplies `diff * diff`).  Defined here for equal-length
descriptors — the store-wide fixed dimension — via `zipWith`. -/
noncomputable def calculateDistance (descriptor1 descriptor2 : List ℝ) : ℝ :=
  Real.sqrt ((List.zipWith (fun a b => (a - b) * (a - b)) descriptor1 descriptor2).sum)

/-- One iteration of the inner loop of `recognizeFace`: replace the running
`bestMatch` when the candidate's distance is strictly smaller.  The initial
distance `Infinity` is the `none` case, which every real distance beats. -/
noncomputable def bestMatchStep (inputDescriptor : List ℝ)
    (best : String × Option ℝ) (registeredFace : RegisteredFace) :
    String × Option ℝ :=
  let distance := calculateDistance inputDescriptor registeredFace.descriptor
  match best.2 with
  | none => (registeredFace.name, some distance)
  | some bd => if distance < bd then (registeredFace.name, some distance) else best

/-- The full inner loop of `recognizeFace` for one detection: fold
`bestMatchStep` over the registered faces starting from
`{name: 'Unknown', distance: Infinity}`. -/
noncomputable def bestMatch (registeredFaces : List RegisteredFace)
    (inputDescriptor : List ℝ) : String × Option ℝ :=
  registeredFaces.foldl (bestMatchStep inputDescriptor) ("Unknown", none)

/-- `isMatch = bestMatch.distance < threshold`; false when the distance is
still `Infinity` (empty enrolled set). -/
noncomputable def isMatchOf (bestDistance : Option ℝ) (threshold : ℝ) : Bool :=
  match bestDistance with
  | none => false
  | some d => if d < threshold then true else false

/-- `confidence = Math.max(0, 100 - bestMatch.distance * 100)`; when the
distance is still `Infinity` this is `max(0, -Infinity) = 0`. -/
noncomputable def confidenceOf (bestDistance : Option ℝ) : ℝ :=
  match bestDistance with
  | none => 0
  | some d => max 0 (100 - d * 100)

/-- Numeric content of JavaScript `x.toFixed(2)`: `x` rounded to two
decimal places (the route returns its decimal-string rendering). -/
noncomputable def toFixed2 (x : ℝ) : ℝ :=
  (round (x * 100) : ℤ) / 100

/-- One element of the `results` array of `recognizeFace`.  The
`confidence` field holds the rounded number whose decimal string
(`confidence.toFixed(2)`) the JavaScript pushes. -/
structure FaceResult where
  name : String
  confidence : ℝ
  isMatched : Bool
  distance : Option ℝ

/-- The body of the per-detection loop of `recognizeFace`: compute the best
match, the match decision and the confidence, push a result, and log the
attempt (the log row receives the unrounded confidence). -/
noncomputable def processDetection (registeredFaces : List RegisteredFace)
    (threshold : ℝ) (inputDescriptor : List ℝ) : FaceResult × LogRow :=
  let bm := bestMatch registeredFaces inputDescriptor
  let isM := isMatchOf bm.2 threshold
  let confidence := confidenceOf bm.2
  (⟨bm.1, toFixed2 confidence, isM, bm.2⟩,
   ⟨bm.1, confidence, if isM then "matched" else "unmatched"⟩)

/-- The loop of `recognizeFace` over all detections: one `FaceResult` and
one `recognition_logs` row per detected face, in order. -/
noncomputable def recognizeFaceCore (registeredFaces : List RegisteredFace)
    (threshold : ℝ) (detections : List (List ℝ)) :
    List FaceResult × List LogRow :=
  (detections.map (fun d => (processDetection registeredFaces threshold d).1),
   detections.map (fun d => (processDetection registeredFaces threshold d).2))

/-- Effective threshold reaching the match comparison when the
`/api/recognize` route is called with body threshold `t`:
the route passes `threshold || 0.5`, and `recognizeFace`'s parameter
default `0.5` covers the omitted (`undefined`) case.  `none` models an
omitted field; `some 0` is the falsy number `0`. -/
noncomputable def effectiveThreshold (t : Option ℝ) : ℝ :=
  match t with
  | none => 0.5
  | some x => if x = 0 then 0.5 else x

/-- `/api/recognize` reaching the per-detection loop: `recognizeFace`
invoked with `threshold || 0.5`. -/
noncomputable def recognizeRoute (registeredFaces : List RegisteredFace)
    (detections : List (List ℝ)) (t : Option ℝ) :
    List FaceResult × List LogRow :=
  recognizeFaceCore registeredFaces (effectiveThreshold t) detections

/-- Outcome of the `/api/register` route. -/
inductive RegisterOutcome where
  | missingInput
  | noFaceDetected
  | ambiguousInput
  | registered (faceId : Nat)
  | serverError
deriving DecidableEq

/-- The `/api/register` route: require `name` and `imagePath` (a missing or
empty string is falsy), run the extractor (`detectFace`; `none` models its
`null` on error), require exactly one detection (`400` if zero, `400` if
more than one), then `registerFace` with the single descriptor. -/
def registerRoute (s : StoreState) (name imagePath : String)
    (detections : Option (List (List ℝ))) : StoreState × RegisterOutcome :=
  if name = "" ∨ imagePath = "" then (s, RegisterOutcome.missingInput)
  else
    match detections with
    | none => (s, RegisterOutcome.noFaceDetected)
    | some [] => (s, RegisterOutcome.noFaceDetected)
    | some [d] =>
        let p := registerFace s name d
        match p.2 with
        | Except.ok faceId => (p.1, RegisterOutcome.registered faceId)
        | Except.error _ => (s, RegisterOutcome.serverError)
    | some (_ :: _ :: _) => (s, RegisterOutcome.ambiguousInput)

/-! ## Concrete fixtures used by counterexamples and witnesses -/

/-- A store holding one enrolled face, "Alice", with a 3-dimensional
descriptor: the store's established dimension is 3. -/
noncomputable def sAlice : StoreState :=
  ⟨2, [⟨1, "Alice", [(1:ℝ)/10, 2/10, 3/10]⟩]⟩

/-- The dimension the spec says the first enrolled descriptor fixes for the
store's lifetime (`none` when the store is empty).  This notion exists only
in the spec; the code has no counterpart. -/
def establishedDim (s : StoreState) : Option Nat :=
  s.faces.head?.map (fun f => f.descriptor.length)

/-! ## General theorems -/

/-- C2 counterexample: the store's established dimension is 3, the new
descriptor has dimension 2, yet `registerFace` resolves the fresh id and
durably appends the record — no `ValidationError`, which the code does not
even define. -/
theorem registerFace_c2_counterexample :
    establishedDim sAlice = some 3
    ∧ [(1:ℝ)/10, 2/10].length = 2
    ∧ (registerFace sAlice "Eve" [(1:ℝ)/10, 2/10]).2 = Except.ok 2
    ∧ (registerFace sAlice "Eve" [(1:ℝ)/10, 2/10]).1.faces =
        sAlice.faces ++ [⟨2, "Eve", [(1:ℝ)/10, 2/10]⟩] :=
  ⟨rfl, rfl, rfl, rfl⟩

/-- C2 (amended): `registerFace` performs no dimensionality validation:
even when the descriptor's dimension differs from the store's established
dimension, it resolves the fresh id and durably appends the record. -/
theorem registerFace_no_dimension_check (s : StoreState) (name : String)
    (descriptor : List ℝ)
    (hmismatch : establishedDim s ≠ some descriptor.length) :
    (registerFace s name descriptor).2 = Except.ok s.nextId
    ∧ getAllFaces (registerFace s name descriptor).1 =
        getAllFaces s ++ [⟨s.nextId, name, descriptor⟩] :=
  ⟨rfl, rfl⟩

/-- C2 witness: enrolling a 2-dimensional descriptor into `sAlice`
(established dimension 3) succeeds and writes. -/
theorem registerFace_no_dimension_check_witness :
    (establishedDim sAlice ≠ some ([(1:ℝ)/10, 2/10].length))
    ∧ ((registerFace sAlice "Eve" [(1:ℝ)/10, 2/10]).2 = Except.ok sAlice.nextId
       ∧ getAllFaces (registerFace sAlice "Eve" [(1:ℝ)/10, 2/10]).1 =
           getAllFaces sAlice ++ [⟨sAlice.nextId, "Eve", [(1:ℝ)/10, 2/10]⟩]) :=
  ⟨by simp [establishedDim, sAlice], 
   registerFace_no_dimension_check sAlice "Eve" [(1:ℝ)/10, 2/10]
     (by simp [establishedDim, sAlice])⟩

/-- C3 counterexample: id 5 is absent from `sAlice`, yet `deleteFace`
resolves `true` and raises nothing — no `NotFoundError`, which the code
does not even define. -/
theorem deleteFace_c3_counterexample :
    (∀ f ∈ sAlice.faces, f.id ≠ 5)
    ∧ deleteFace sAlice 5 = (sAlice, Except.ok true) := by
  constructor
  · intro f hf
    simp only [sAlice, List.mem_singleton] at hf
    subst hf
    decide
  · rfl

/-- C3 (amended): `deleteFace` resolves `true` unconditionally; a present
id is removed (and records with other ids are kept), while an absent id
also resolves `true` with no error. -/
theorem deleteFace_removes_and_always_succeeds (s : StoreState) (faceId : Nat) :
    (deleteFace s faceId).2 = Except.ok true
    ∧ ∀ f : RegisteredFace,
        f ∈ (deleteFace s faceId).1.faces ↔ (f ∈ s.faces ∧ f.id ≠ faceId) := by
  refine ⟨rfl, fun f => ?_⟩
  simp [deleteFace, List.mem_filter]

/-- C4: matching a query against an empty enrolled set yields name
"Unknown", distance `Infinity` (`none`), a `false` match decision, and
confidence 0 in both the per-face result and the ledger row, for every
threshold. -/
theorem recognize_empty_store_c4 (q : List ℝ) (t : ℝ) :
    (processDetection [] t q).1.name = "Unknown"
    ∧ (processDetection [] t q).1.distance = none
    ∧ (processDetection [] t q).1.isMatched = false
    ∧ (processDetection [] t q).1.confidence = 0
    ∧ (processDetection [] t q).2.confidence = 0 := by
  refine ⟨rfl, rfl, rfl, ?_, rfl⟩
  show toFixed2 (confidenceOf none) = 0
  simp [toFixed2, confidenceOf]

/-- C6: the confidence transform equals `max(0, 100 - d*100)`, lies in
`[0, 100]` for every distance `d ≥ 0`, and is non-increasing in the
distance. -/
theorem confidence_c6 (d1 d2 : ℝ) (h0 : 0 ≤ d1) (h12 : d1 ≤ d2) :
    confidenceOf (some d1) = max 0 (100 - d1 * 100)
    ∧ 0 ≤ confidenceOf (some d1)
    ∧ confidenceOf (some d1) ≤ 100
    ∧ confidenceOf (some d2) ≤ confidenceOf (some d1) := by
  refine ⟨rfl, le_max_left _ _, ?_, ?_⟩
  · exact max_le (by norm_num) (by nlinarith)
  · show max 0 (100 - d2 * 100) ≤ max 0 (100 - d1 * 100)
    exact max_le_max le_rfl (by linarith)

/-- C6 witness at distances 0.1 and 0.3, with the confidence at 0.1
evaluated to 90. -/
theorem confidence_c6_witness :
    (0 ≤ (1:ℝ)/10) ∧ ((1:ℝ)/10 ≤ 3/10)
    ∧ (confidenceOf (some ((1:ℝ)/10)) = max 0 (100 - (1:ℝ)/10 * 100)
       ∧ 0 ≤ confidenceOf (some ((1:ℝ)/10))
       ∧ confidenceOf (some ((1:ℝ)/10)) ≤ 100
       ∧ confidenceOf (some ((3:ℝ)/10)) ≤ confidenceOf (some ((1:ℝ)/10)))
    ∧ confidenceOf (some ((1:ℝ)/10)) = 90 :=
  ⟨by norm_num, by norm_num,
   confidence_c6 ((1:ℝ)/10) ((3:ℝ)/10) (by norm_num) (by norm_num),
   by show max 0 (100 - (1:ℝ)/10 * 100) = 90; norm_num⟩

/-- Five ledger rows in insertion (time) order. -/
noncomputable def logsFive : List LogRow :=
  [⟨"a", 1, "matched"⟩, ⟨"b", 2, "unmatched"⟩, ⟨"c", 3, "matched"⟩,
   ⟨"d", 4, "unmatched"⟩, ⟨"e", 5, "matched"⟩]

/-- C7: for a positive `limit`, the history query returns the `limit` most
recent rows, newest first; when `limit` is at least the number of rows it
returns all of them (newest first), and in general it returns
`min limit count` rows. -/
theorem getRecognitionHistory_c7 (logs : List LogRow) (limit : Nat)
    (hpos : 0 < limit) :
    getRecognitionHistory logs limit = (logs.drop (logs.length - limit)).reverse
    ∧ (logs.length ≤ limit → getRecognitionHistory logs limit = logs.reverse)
    ∧ (getRecognitionHistory logs limit).length = min limit logs.length := by
  refine ⟨List.take_reverse, fun hle => ?_, ?_⟩
  · show logs.reverse.take limit = logs.reverse
    exact List.take_of_length_le (by simpa using hle)
  · show (logs.reverse.take limit).length = min limit logs.length
    simp [List.length_take]

/-- C7 witness: `limit = 2` on a five-row ledger returns exactly the two
most recent rows, newest first. -/
theorem getRecognitionHistory_c7_witness :
    0 < 2
    ∧ (getRecognitionHistory logsFive 2 =
        (logsFive.drop (logsFive.length - 2)).reverse
       ∧ (logsFive.length ≤ 2 → getRecognitionHistory logsFive 2 = logsFive.reverse)
       ∧ (getRecognitionHistory logsFive 2).length = min 2 logsFive.length)
    ∧ getRecognitionHistory logsFive 2 =
        [⟨"e", 5, "matched"⟩, ⟨"d", 4, "unmatched"⟩] :=
  ⟨by decide, getRecognitionHistory_c7 logsFive 2 (by decide), rfl⟩

/-- C8: with name and image path supplied, the register route answers
`NoFaceDetected` when the extractor reports zero descriptors and
`AmbiguousInput` when it reports more than one, and in both cases leaves
the store untouched. -/
theorem registerRoute_c8 (s : StoreState) (name imagePath : String)
    (dets : List (List ℝ)) (hn : name ≠ "") (hp : imagePath ≠ "") :
    (dets = [] →
       registerRoute s name imagePath (some dets) = (s, RegisterOutcome.noFaceDetected))
    ∧ (2 ≤ dets.length →
       registerRoute s name imagePath (some dets) = (s, RegisterOutcome.ambiguousInput)) := by
  constructor
  · rintro rfl
    simp [registerRoute, hn, hp]
  · intro h2
    match dets, h2 with
    | d1 :: d2 :: rest, _ =>
      simp [registerRoute, hn, hp]

/-- C8 witness: with zero detections the route reports no face; the
two-detection half is discharged on `[[1], [2]]`. -/
theorem registerRoute_c8_witness :
    ("Ann" ≠ "") ∧ ("img" ≠ "")
    ∧ (([] : List (List ℝ)) = [] →
        registerRoute sAlice "Ann" "img" (some []) = (sAlice, RegisterOutcome.noFaceDetected))
    ∧ (2 ≤ ([[(1:ℝ)], [(2:ℝ)]] : List (List ℝ)).length →
        registerRoute sAlice "Ann" "img" (some [[(1:ℝ)], [(2:ℝ)]]) =
          (sAlice, RegisterOutcome.ambiguousInput)) :=
  ⟨by decide, by decide,
   (registerRoute_c8 sAlice "Ann" "img" ([] : List (List ℝ))
      (by decide) (by decide)).1,
   (registerRoute_c8 sAlice "Ann" "img" ([[(1:ℝ)], [(2:ℝ)]] : List (List ℝ))
      (by decide) (by decide)).2⟩

/-- C9: when the caller's threshold is absent or the falsy `0`, the value
reaching the match comparison is `0.5`, so the whole recognize flow behaves
as with threshold `0.5`; a best distance of `0.3` is then reported matched,
although `0.3 < 0` is false. -/
theorem recognizeRoute_default_threshold_c9 (t : Option ℝ)
    (hfalsy : t = none ∨ t = some 0) :
    effectiveThreshold t = 1/2
    ∧ (∀ (registeredFaces : List RegisteredFace) (detections : List (List ℝ)),
        recognizeRoute registeredFaces detections t =
          recognizeFaceCore registeredFaces (1/2) detections)
    ∧ isMatchOf (some ((3:ℝ)/10)) (effectiveThreshold t) = true
    ∧ isMatchOf (some ((3:ℝ)/10)) 0 = false := by
  have heff : effectiveThreshold t = 1/2 := by
    rcases hfalsy with h | h <;> subst h <;>
      simp [effectiveThreshold] <;> norm_num
  refine ⟨heff, fun registeredFaces detections => ?_, ?_, ?_⟩
  · show recognizeFaceCore registeredFaces (effectiveThreshold t) detections = _
    rw [heff]
  · rw [heff]
    show (if (3:ℝ)/10 < 1/2 then true else false) = true
    rw [if_pos (by norm_num)]
  · show (if (3:ℝ)/10 < 0 then true else false) = false
    rw [if_neg (by norm_num)]

/-- C9 witness: the caller's threshold `0` is replaced by `0.5`. -/
theorem recognizeRoute_default_threshold_c9_witness :
    ((some (0:ℝ)) = none ∨ (some (0:ℝ)) = some 0)
    ∧ (effectiveThreshold (some (0:ℝ)) = 1/2
       ∧ (∀ (registeredFaces : List RegisteredFace) (detections : List (List ℝ)),
            recognizeRoute registeredFaces detections (some (0:ℝ)) =
              recognizeFaceCore registeredFaces (1/2) detections)
       ∧ isMatchOf (some ((3:ℝ)/10)) (effectiveThreshold (some (0:ℝ))) = true
       ∧ isMatchOf (some ((3:ℝ)/10)) 0 = false) :=
  ⟨Or.inr rfl, recognizeRoute_default_threshold_c9 (some (0:ℝ)) (Or.inr rfl)⟩

/-! ## The matcher loop (C1) -/

/-- The inner-loop update once the running distance is finite (i.e. after
the first candidate): keep the candidate exactly when its distance is
strictly smaller than the running best. -/
noncomputable def runStep (inputDescriptor : List ℝ) (best : String × ℝ)
    (registeredFace : RegisteredFace) : String × ℝ :=
  if calculateDistance inputDescriptor registeredFace.descriptor < best.2 then
    (registeredFace.name, calculateDistance inputDescriptor registeredFace.descriptor)
  else best

/-- Once the accumulator's distance is finite, the loop never returns to
`Infinity`: folding `bestMatchStep` is folding `runStep` on the finite
component. -/
lemma foldl_bestMatchStep_some (q : List ℝ) :
    ∀ (fs : List RegisteredFace) (n : String) (d : ℝ),
      fs.foldl (bestMatchStep q) (n, some d) =
        ((fs.foldl (runStep q) (n, d)).1, some (fs.foldl (runStep q) (n, d)).2) := by
  intro fs
  induction fs with
  | nil => intro n d; rfl
  | cons f fs ih =>
    intro n d
    rw [List.foldl_cons, List.foldl_cons]
    by_cases h : calculateDistance q f.descriptor < d
    · rw [show bestMatchStep q (n, some d) f =
            (f.name, some (calculateDistance q f.descriptor)) from by
          simp [bestMatchStep, h],
        show runStep q (n, d) f = (f.name, calculateDistance q f.descriptor) from by
          simp [runStep, h]]
      exact ih f.name _
    · rw [show bestMatchStep q (n, some d) f = (n, some d) from by
          simp [bestMatchStep, h],
        show runStep q (n, d) f = (n, d) from by
          simp [runStep, h]]
      exact ih n d

/-- Invariant of the finite-accumulator loop: either no candidate beats the
accumulator (which then survives, ties included, because the comparison is
strict), or the result is the first candidate attaining the minimum
distance, which is strictly below the accumulator's distance. -/
lemma runStep_foldl_spec (q : List ℝ) :
    ∀ (fs : List RegisteredFace) (b : String × ℝ),
      (fs.foldl (runStep q) b = b
         ∧ ∀ f ∈ fs, b.2 ≤ calculateDistance q f.descriptor)
      ∨ (∃ i : Fin fs.length,
           fs.foldl (runStep q) b =
             ((fs.get i).name, calculateDistance q (fs.get i).descriptor)
           ∧ calculateDistance q (fs.get i).descriptor < b.2
           ∧ (∀ j : Fin fs.length,
                calculateDistance q (fs.get i).descriptor
                  ≤ calculateDistance q (fs.get j).descriptor)
           ∧ (∀ j : Fin fs.length, (j : ℕ) < (i : ℕ) →
                calculateDistance q (fs.get i).descriptor
                  < calculateDistance q (fs.get j).descriptor)) := by
  intro fs
  induction fs with
  | nil =>
    intro b
    left
    exact ⟨rfl, by simp⟩
  | cons f fs ih =>
    intro b
    rw [List.foldl_cons]
    by_cases h : calculateDistance q f.descriptor < b.2
    · rw [show runStep q b f = (f.name, calculateDistance q f.descriptor) from by
        simp [runStep, h]]
      rcases ih (f.name, calculateDistance q f.descriptor) with
        ⟨heq, hall⟩ | ⟨i, heq, hlt, hmin, hfirst⟩
      · right
        refine ⟨⟨0, Nat.succ_pos _⟩, heq, h, ?_, ?_⟩
        · intro j
          match j with
          | ⟨0, _⟩ => exact le_refl _
          | ⟨jj + 1, hj⟩ =>
            exact hall (fs.get ⟨jj, Nat.lt_of_succ_lt_succ hj⟩) (List.get_mem _ _ _)
        · intro j hj
          exact absurd hj (Nat.not_lt_zero _)
      · right
        refine ⟨⟨(i : ℕ) + 1, Nat.succ_lt_succ i.isLt⟩, heq, lt_trans hlt h, ?_, ?_⟩
        · intro j
          match j with
          | ⟨0, _⟩ => exact le_of_lt hlt
          | ⟨jj + 1, hj⟩ =>
            exact hmin ⟨jj, Nat.lt_of_succ_lt_succ hj⟩
        · intro j hj
          match j, hj with
          | ⟨0, _⟩, _ => exact hlt
          | ⟨jj + 1, hj⟩, hlt' =>
            exact hfirst ⟨jj, Nat.lt_of_succ_lt_succ hj⟩ (Nat.lt_of_succ_lt_succ hlt')
    · rw [show runStep q b f = b from by simp [runStep, h]]
      rcases ih b with ⟨heq, hall⟩ | ⟨i, heq, hlt, hmin, hfirst⟩
      · left
        refine ⟨heq, fun g hg => ?_⟩
        rcases List.mem_cons.mp hg with hg | hg
        · subst hg
          exact not_lt.mp h
        · exact hall g hg
      · right
        refine ⟨⟨(i : ℕ) + 1, Nat.succ_lt_succ i.isLt⟩, heq, hlt, ?_, ?_⟩
        · intro j
          match j with
          | ⟨0, _⟩ => exact le_of_lt (lt_of_lt_of_le hlt (not_lt.mp h))
          | ⟨jj + 1, hj⟩ =>
            exact hmin ⟨jj, Nat.lt_of_succ_lt_succ hj⟩
        · intro j hj
          match j, hj with
          | ⟨0, _⟩, _ => exact lt_of_lt_of_le hlt (not_lt.mp h)
          | ⟨jj + 1, hj⟩, hlt' =>
            exact hfirst ⟨jj, Nat.lt_of_succ_lt_succ hj⟩ (Nat.lt_of_succ_lt_succ hlt')

/-- The boolean match decision against a finite best distance is exactly
the strict comparison with the threshold. -/
lemma isMatchOf_some_iff (d t : ℝ) : isMatchOf (some d) t = true ↔ d < t := by
  show (if d < t then true else false) = true ↔ d < t
  split_ifs with h <;> simp [h]

/-- C1: on a non-empty enrolled set the inner loop of `recognizeFace`
selects the record with minimum Euclidean distance to the query, breaking
ties between equal minima in favour of the first-encountered record, and
the match flag is true exactly when that minimum distance is strictly
below the threshold. -/
theorem recognizeFace_matcher_c1 (registeredFaces : List RegisteredFace)
    (q : List ℝ) (threshold : ℝ) (hne : registeredFaces ≠ []) :
    ∃ i : Fin registeredFaces.length,
      bestMatch registeredFaces q =
        ((registeredFaces.get i).name,
         some (calculateDistance q (registeredFaces.get i).descriptor))
      ∧ (∀ j : Fin registeredFaces.length,
           calculateDistance q (registeredFaces.get i).descriptor
             ≤ calculateDistance q (registeredFaces.get j).descriptor)
      ∧ (∀ j : Fin registeredFaces.length, (j : ℕ) < (i : ℕ) →
           calculateDistance q (registeredFaces.get i).descriptor
             < calculateDistance q (registeredFaces.get j).descriptor)
      ∧ (isMatchOf (bestMatch registeredFaces q).2 threshold = true ↔
           calculateDistance q (registeredFaces.get i).descriptor < threshold) := by
  match registeredFaces, hne with
  | f :: fs, _ =>
    have h0 : bestMatch (f :: fs) q =
        fs.foldl (bestMatchStep q) (f.name, some (calculateDistance q f.descriptor)) := rfl
    rw [h0, foldl_bestMatchStep_some]
    rcases runStep_foldl_spec q fs (f.name, calculateDistance q f.descriptor) with
      ⟨heq, hall⟩ | ⟨i, heq, hlt, hmin, hfirst⟩
    · refine ⟨⟨0, Nat.succ_pos _⟩, by rw [heq]; rfl, ?_, ?_, ?_⟩
      · intro j
        match j with
        | ⟨0, _⟩ => exact le_refl _
        | ⟨jj + 1, hj⟩ =>
          exact hall (fs.get ⟨jj, Nat.lt_of_succ_lt_succ hj⟩) (List.get_mem _ _ _)
      · intro j hj
        exact absurd hj (Nat.not_lt_zero _)
      · rw [heq]
        exact isMatchOf_some_iff _ _
    · refine ⟨⟨(i : ℕ) + 1, Nat.succ_lt_succ i.isLt⟩, by rw [heq]; rfl, ?_, ?_, ?_⟩
      · intro j
        match j with
        | ⟨0, _⟩ => exact le_of_lt hlt
        | ⟨jj + 1, hj⟩ =>
          exact hmin ⟨jj, Nat.lt_of_succ_lt_succ hj⟩
      · intro j hj
        match j, hj with
        | ⟨0, _⟩, _ => exact hlt
        | ⟨jj + 1, hj⟩, hlt' =>
          exact hfirst ⟨jj, Nat.lt_of_succ_lt_succ hj⟩ (Nat.lt_of_succ_lt_succ hlt')
      · rw [heq]
        exact isMatchOf_some_iff _ _

/-- Two enrolled faces used by the C1 witness: "A" at distance 1 from the
query `[0]`, "B" at distance 2. -/
noncomputable def facesAB : List RegisteredFace :=
  [⟨1, "A", [(1:ℝ)]⟩, ⟨2, "B", [(2:ℝ)]⟩]

/-- C1 witness on `facesAB` with query `[0]` and threshold `1/2`; the loop
output is also evaluated concretely to `("A", 1)`. -/
theorem recognizeFace_matcher_c1_witness :
    facesAB ≠ []
    ∧ (∃ i : Fin facesAB.length,
        bestMatch facesAB [(0:ℝ)] =
          ((facesAB.get i).name,
           some (calculateDistance [(0:ℝ)] (facesAB.get i).descriptor))
        ∧ (∀ j : Fin facesAB.length,
             calculateDistance [(0:ℝ)] (facesAB.get i).descriptor
               ≤ calculateDistance [(0:ℝ)] (facesAB.get j).descriptor)
        ∧ (∀ j : Fin facesAB.length, (j : ℕ) < (i : ℕ) →
             calculateDistance [(0:ℝ)] (facesAB.get i).descriptor
               < calculateDistance [(0:ℝ)] (facesAB.get j).descriptor)
        ∧ (isMatchOf (bestMatch facesAB [(0:ℝ)]).2 (1/2) = true ↔
             calculateDistance [(0:ℝ)] (facesAB.get i).descriptor < 1/2))
    ∧ bestMatch facesAB [(0:ℝ)] = ("A", some 1) := by
  have hA : calculateDistance [(0:ℝ)] [(1:ℝ)] = 1 := by
    unfold calculateDistance
    rw [show (List.zipWith (fun a b => (a - b) * (a - b)) [(0:ℝ)] [(1:ℝ)]).sum = 1 by
      norm_num]
    exact Real.sqrt_one
  have hB : calculateDistance [(0:ℝ)] [(2:ℝ)] = 2 := by
    unfold calculateDistance
    rw [show (List.zipWith (fun a b => (a - b) * (a - b)) [(0:ℝ)] [(2:ℝ)]).sum = 4 by
      norm_num]
    rw [show (4:ℝ) = 2^2 by norm_num]
    exact Real.sqrt_sq (by norm_num)
  refine ⟨by simp [facesAB], recognizeFace_matcher_c1 facesAB [(0:ℝ)] (1/2) (by simp [facesAB]), ?_⟩
  show List.foldl (bestMatchStep [(0:ℝ)]) ("Unknown", none) facesAB = ("A", some 1)
  rw [show facesAB = [⟨1, "A", [(1:ℝ)]⟩, ⟨2, "B", [(2:ℝ)]⟩] from rfl]
  rw [List.foldl_cons, List.foldl_cons, List.foldl_nil]
  norm_num [bestMatchStep, hA, hB]

/-- C10: for every detected face, the ledger row receives the unrounded
confidence `max(0, 100 - distance*100)` while the per-face response carries
that value rounded to two decimals (the numeric content of `toFixed(2)`),
and there are inputs on which the two differ. -/
theorem recognize_confidence_rounding_c10 :
    (∀ (registeredFaces : List RegisteredFace) (t : ℝ) (q : List ℝ),
        (processDetection registeredFaces t q).2.confidence =
          confidenceOf (processDetection registeredFaces t q).1.distance
        ∧ (processDetection registeredFaces t q).1.confidence =
            toFixed2 ((processDetection registeredFaces t q).2.confidence))
    ∧ ∃ (registeredFaces : List RegisteredFace) (t : ℝ) (q : List ℝ),
        (processDetection registeredFaces t q).1.confidence ≠
          (processDetection registeredFaces t q).2.confidence := by
  constructor
  · intro registeredFaces t q
    exact ⟨rfl, rfl⟩
  · refine ⟨[⟨1, "A", [(1:ℝ)/4000]⟩], 1/2, [(0:ℝ)], ?_⟩
    have hd : calculateDistance [(0:ℝ)] [(1:ℝ)/4000] = 1/4000 := by
      unfold calculateDistance
      rw [show (List.zipWith (fun a b => (a - b) * (a - b)) [(0:ℝ)] [(1:ℝ)/4000]).sum
          = ((1:ℝ)/4000)^2 by norm_num [sq]]
      exact Real.sqrt_sq (by norm_num)
    have hbm : bestMatch [⟨1, "A", [(1:ℝ)/4000]⟩] [(0:ℝ)] = ("A", some ((1:ℝ)/4000)) := by
      show List.foldl (bestMatchStep [(0:ℝ)]) ("Unknown", none) [⟨1, "A", [(1:ℝ)/4000]⟩]
          = ("A", some ((1:ℝ)/4000))
      rw [List.foldl_cons, List.foldl_nil]
      show ("A", some (calculateDistance [(0:ℝ)] [(1:ℝ)/4000])) = ("A", some ((1:ℝ)/4000))
      rw [hd]
    show toFixed2 (confidenceOf (bestMatch [⟨1, "A", [(1:ℝ)/4000]⟩] [(0:ℝ)]).2) ≠
        confidenceOf (bestMatch [⟨1, "A", [(1:ℝ)/4000]⟩] [(0:ℝ)]).2
    rw [hbm]
    have hconf : confidenceOf (some ((1:ℝ)/4000)) = 3999/40 := by
      show max 0 (100 - (1:ℝ)/4000 * 100) = 3999/40
      rw [max_eq_right (by norm_num)]
      norm_num
    rw [hconf]
    have hfix : toFixed2 ((3999:ℝ)/40) = 4999/50 := by
      unfold toFixed2
      rw [show (3999:ℝ)/40 * 100 = 19995/2 by norm_num]
      rw [round_eq]
      rw [show (19995:ℝ)/2 + 1/2 = ((9998:ℤ):ℝ) by norm_num]
      rw [Int.floor_intCast]
      norm_num
    rw [hfix]
    norm_num
